import Mathlib

/-!
Shallow embedding of the chat-room core of `projects/makemore/api/api.py`:
the persistent per-room message store, the generated-text message
grammar, the single-flight generation coordinator and the
cursor-paginated read path.  Each definition is translated from the
Python source; modelling notes (character-set scope, where wall-clock
and randomness inputs become explicit parameters) are recorded at the
definition they concern.
-/

namespace Chat

/-- The ASCII whitespace characters recognised by CPython for
`str.strip()` and by the regex class matching whitespace (code points
9, 10, 11, 12, 13 and 32); whitespace outside ASCII is outside the
modelled character range. -/
def pySpace (c : Char) : Bool :=
  c = ' ' || c = '\t' || c = '\n' || c = '\r' || c = Char.ofNat 11 || c = Char.ofNat 12

/-- Python `str.strip()` on a character list: drop whitespace from both
ends. -/
def pyStripL (cs : List Char) : List Char :=
  ((cs.dropWhile pySpace).reverse.dropWhile pySpace).reverse

/-- Python `str.strip()`. -/
def pyStrip (s : String) : String :=
  String.mk (pyStripL s.data)

/-- Python `text.split("\x5cn")`: split on every newline, keeping empty
pieces (so the number of pieces is one more than the number of
newlines). -/
def pySplitLines : List Char → List (List Char)
  | [] => [[]]
  | c :: rest =>
    if c = '\n' then [] :: pySplitLines rest
    else
      match pySplitLines rest with
      | [] => [[c]]
      | l :: ls => (c :: l) :: ls

/-- ASCII lower-casing of one character, as `str.lower()` acts on the
ASCII range. -/
def asciiLowerChar (c : Char) : Char :=
  if 'A' ≤ c ∧ c ≤ 'Z' then Char.ofNat (c.toNat + 32) else c

/-- Python `str.lower()` restricted to the ASCII range. -/
def asciiLowerL (cs : List Char) : List Char :=
  cs.map asciiLowerChar

/-- Python `needle in hay` on strings: contiguous substring test. -/
def containsSub (needle : List Char) : List Char → Bool
  | [] => needle.isEmpty
  | c :: rest => List.isPrefixOf needle (c :: rest) || containsSub needle rest

/-! ### A backtracking matcher for the two message-line regexes

`parse_first_message` matches each line against
`^\x5c[?(\d{1,2}/\d{1,2}/\d{2,4}),?\s*(\d{1,2}:\d{1,2}(?::\d{1,2})?)\x5c]?\s*([^:]+):\s*(.+)$`
and then against the same expression with the two optional bracket
atoms removed.  The combinators below implement the regex engine for
exactly the atoms these patterns use, with the engine's leftmost,
greedy, backtracking alternative order. -/

/-- Length of the longest prefix of `cs`, of length at most `hi`, whose
characters all satisfy `p`: the maximal text a greedy bounded
character-class quantifier can consume. -/
def countSat (p : Char → Bool) : Nat → List Char → Nat
  | 0, _ => 0
  | _, [] => 0
  | hi + 1, c :: cs => if p c then countSat p hi cs + 1 else 0

/-- Try `f m`, `f (m - 1)`, ..., `f lo` in that order; the greedy
quantifier tries its longest match first and backtracks through
shorter ones. -/
def downFrom (f : Nat → Option α) (lo : Nat) : Nat → Option α
  | 0 => if lo = 0 then f 0 else none
  | m + 1 =>
    if m + 1 < lo then none
    else
      match f (m + 1) with
      | some a => some a
      | none => downFrom f lo m

/-- Greedy match of between `lo` and `hi` characters satisfying `p`
(the quantifier `p{lo,hi}` over a character class); the continuation
`k` receives the consumed characters and the remainder. -/
def greedySat (p : Char → Bool) (lo hi : Nat) (cs : List Char)
    (k : List Char → List Char → Option α) : Option α :=
  downFrom (fun m => k (cs.take m) (cs.drop m)) lo (countSat p hi cs)

/-- A single mandatory literal character. -/
def litChar (c : Char) (cs : List Char) (k : List Char → Option α) : Option α :=
  match cs with
  | c2 :: rest => if c2 = c then k rest else none
  | [] => none

/-- An optional literal character (`c?`): try consuming it first, then
fall back to not consuming it. -/
def optLit (c : Char) (cs : List Char) (k : List Char → Option α) : Option α :=
  match cs with
  | c2 :: rest =>
    if c2 = c then
      match k rest with
      | some a => some a
      | none => k cs
    else k cs
  | [] => k []

/-- An optional literal character that is present in the first pattern
and absent from the second. -/
def optLitIf (b : Bool) (c : Char) (cs : List Char) (k : List Char → Option α) : Option α :=
  if b then optLit c cs k else k cs

/-- The optional seconds group `(?::\d{1,2})?` inside the time capture:
try the colon-and-digits form first (greedy), then the empty form; the
continuation receives the consumed text (to be included in the time
capture) and the remainder. -/
def optSeconds (cs : List Char) (k : List Char → List Char → Option α) : Option α :=
  match
    (match cs with
     | ':' :: rest => greedySat Char.isDigit 1 2 rest (fun ds cs2 => k (':' :: ds) cs2)
     | _ => none)
  with
  | some a => some a
  | none => k [] cs

/-- The four captures of a structural match of one message line: date,
time, raw sender and raw content. -/
structure RawMatch where
  date : List Char
  time : List Char
  rawSender : List Char
  rawContent : List Char

/-- `re.match` of one of the two message-line patterns against a full
line.  `brackets = true` is the first pattern (with the optional `[`
and `]` atoms); `brackets = false` is the second (no bracket atoms).
The atoms appear in source order: optional `[`, date
`\d{1,2}/\d{1,2}/\d{2,4}`, optional `,`, whitespace, time
`\d{1,2}:\d{1,2}(?::\d{1,2})?`, optional `]`, whitespace, sender
`[^:]+`, `:`, whitespace, content `.+`, end of line. -/
def matchChatLine (brackets : Bool) (cs : List Char) : Option RawMatch :=
  optLitIf brackets '[' cs fun cs =>
  greedySat Char.isDigit 1 2 cs fun d1 cs =>
  litChar '/' cs fun cs =>
  greedySat Char.isDigit 1 2 cs fun d2 cs =>
  litChar '/' cs fun cs =>
  greedySat Char.isDigit 2 4 cs fun d3 cs =>
  optLit ',' cs fun cs =>
  greedySat pySpace 0 cs.length cs fun _ cs =>
  greedySat Char.isDigit 1 2 cs fun h1 cs =>
  litChar ':' cs fun cs =>
  greedySat Char.isDigit 1 2 cs fun m1 cs =>
  optSeconds cs fun secs cs =>
  optLitIf brackets ']' cs fun cs =>
  greedySat pySpace 0 cs.length cs fun _ cs =>
  greedySat (fun c => c ≠ ':') 1 cs.length cs fun sender cs =>
  litChar ':' cs fun cs =>
  greedySat pySpace 0 cs.length cs fun _ cs =>
  greedySat (fun c => c ≠ '\n') 1 cs.length cs fun content cs =>
  if cs.isEmpty then
    some { date := d1 ++ '/' :: d2 ++ '/' :: d3
           time := h1 ++ ':' :: m1 ++ secs
           rawSender := sender
           rawContent := content }
  else none

/-- A parsed-but-not-yet-committed message draft: the pure fields the
parser extracts.  In the source the draft dictionary also carries a
fresh random id and the wall-clock `createdAt`; both are outputs of
ambient effects and enter the model as explicit parameters where the
draft is committed. -/
structure Draft where
  timestamp : String
  sender : String
  content : String
deriving DecidableEq

/-- The left-to-right mark, one of the three characters
`sender.lstrip` removes. -/
def ltrMark : Char := Char.ofNat 8206

/-- `sender.strip().lstrip(tilde, left-to-right mark, space)` as the
source applies it to the raw sender capture: the second step drops
leading characters from the three-character set only. -/
def lstripSenderMarkup (cs : List Char) : List Char :=
  cs.dropWhile (fun c => c = '~' || c = ltrMark || c = ' ')

/-- The system-message rejection rule: the lower-cased sender begins
with the administrative room name and the lower-cased content contains
one of the three system-event keywords. -/
def isSystemMessage (sender content : List Char) : Bool :=
  List.isPrefixOf ("kings cross hack lab".data) (asciiLowerL sender) &&
  (containsSub ("encrypted".data) (asciiLowerL content) ||
   containsSub ("created".data) (asciiLowerL content) ||
   containsSub ("added".data) (asciiLowerL content))

/-- Validation applied to the four captures of a structural match:
reassemble the display timestamp, clean the sender, trim the content,
then reject system announcements and contents shorter than two
characters. -/
def draftOfGroups (g : RawMatch) : Option Draft :=
  let timestamp := "[" ++ String.mk g.date ++ ", " ++ String.mk g.time ++ "]"
  let sender := lstripSenderMarkup (pyStripL g.rawSender)
  let content := pyStripL g.rawContent
  if isSystemMessage sender content then none
  else if content.length < 2 then none
  else some { timestamp := timestamp, sender := String.mk sender, content := String.mk content }

/-- One iteration of the pattern loop on a stripped line: try the
bracketed pattern, and on a structural match that validation rejects
fall through to the bracket-free pattern, exactly as the `continue`
in the source resumes the pattern loop. -/
def processLine (cs : List Char) : Option Draft :=
  match matchChatLine true cs with
  | some g =>
    match draftOfGroups g with
    | some d => some d
    | none =>
      match matchChatLine false cs with
      | some g2 => draftOfGroups g2
      | none => none
  | none =>
    match matchChatLine false cs with
    | some g2 => draftOfGroups g2
    | none => none

/-- The line loop of `parse_first_message`: strip each line, skip blank
ones, and return the first draft any line yields. -/
def firstDraftOfLines : List (List Char) → Option Draft
  | [] => none
  | l :: rest =>
    if (pyStripL l).isEmpty then firstDraftOfLines rest
    else
      match processLine (pyStripL l) with
      | some d => some d
      | none => firstDraftOfLines rest

/-- `parse_first_message`: split the generated text into lines and
return the first validated draft, if any. -/
def parse_first_message (text : String) : Option Draft :=
  firstDraftOfLines (pySplitLines text.data)

/-! ### Data model: messages, rooms, mutable state -/

/-- A stored chat message, with the six fields the source writes into
every message dictionary. -/
structure Message where
  id : String
  timestamp : String
  sender : String
  content : String
  isUser : Bool
  createdAt : String
deriving DecidableEq

/-- The configured chat rooms: the keys of `CHAT_MODELS`.  The static
display metadata (name, description, model file) takes no part in any
modelled behaviour and is elided. -/
def CHAT_MODELS : List String := ["kxhl-1"]

/-- First-occurrence lookup in an association list with a default:
`d.get(k, default)` on a Python dict, whose keys are unique. -/
def lookupD (l : List (String × α)) (k : String) (d : α) : α :=
  match l with
  | [] => d
  | (k2, v) :: rest => if k2 = k then v else lookupD rest k d

/-- Update-or-append in an association list: `d[k] = v` on a Python
dict (existing keys keep their position, new keys are appended). -/
def setK (l : List (String × α)) (k : String) (v : α) : List (String × α) :=
  match l with
  | [] => [(k, v)]
  | (k2, v2) :: rest => if k2 = k then (k, v) :: rest else (k2, v2) :: setK rest k v

/-- The two module-level dictionaries: `chat_messages` (room id to
ordered message log) and `chat_generating` (room id to single-flight
flag), modelled as association lists with dict update semantics. -/
structure ChatState where
  chat_messages : List (String × List Message)
  chat_generating : List (String × Bool)
deriving DecidableEq

/-- The state after startup with no persisted file: an empty log and a
cleared flag for every configured room. -/
def initialChatState : ChatState :=
  { chat_messages := [("kxhl-1", [])], chat_generating := [("kxhl-1", false)] }

/-- `chat_generating[model_id] = b`. -/
def setGenerating (st : ChatState) (model_id : String) (b : Bool) : ChatState :=
  { st with chat_generating := setK st.chat_generating model_id b }

/-- `chat_messages[model_id].append(message)`.  The source indexes the
dict directly; after startup every configured room has an entry, which
the association-list default makes total. -/
def appendMessage (st : ChatState) (model_id : String) (msg : Message) : ChatState :=
  { st with chat_messages := setK st.chat_messages model_id (lookupD st.chat_messages model_id [] ++ [msg]) }

/-! ### GenerationCoordinator: `generate_chat_message_background` -/

/-- One recorded call to the external generator: the context text, the
token budget and the sampling temperature (the float literal `1.0`
modelled as a rational). -/
abbrev GenCall : Type := String × Nat × Rat

/-- The context builder: `for msg in messages[-10:]` accumulating
`f"{timestamp} {sender}: {content}"` plus a newline for each message,
oldest first. -/
def buildContext (messages : List Message) : String :=
  (messages.drop (messages.length - 10)).foldl
    (fun acc msg => acc ++ (msg.timestamp ++ " " ++ msg.sender ++ ": " ++ msg.content ++ "\n")) ""

/-- The guarded entry of the background task: return unchanged when the
room is unknown or its flag is already set, otherwise raise the flag.
The returned boolean records whether the body will run.  (The task has
no suspension point before the flag is raised, so the check and the
assignment are one atomic step of the event loop.) -/
def triggerBegin (st : ChatState) (model_id : String) : ChatState × Bool :=
  if model_id ∈ CHAT_MODELS then
    if lookupD st.chat_generating model_id false then (st, false)
    else (setGenerating st model_id true, true)
  else (st, false)

/-- The `try/except/finally` body of the background task, entered with
the flag raised.  The generator is an explicit collaborator that either
returns raw text or raises (`Except.error`); a fresh id, the current
display timestamp and the current ISO timestamp are explicit inputs in
place of `uuid.uuid4()` and `datetime.now()`.  Every exit clears the
flag (the `finally` block), the parsed timestamp on the draft is
replaced by the receipt-time stamp, and the list of generator calls
made is returned alongside the final state.  (`save_chat_storage`,
invoked after a successful append, swallows its own errors and does
not alter the in-memory state; persistence is modelled separately.) -/
def triggerBody (gen : String → Nat → Rat → Except String String)
    (freshId now createdAt : String) (st1 : ChatState) (model_id : String) :
    ChatState × List GenCall :=
  match gen (buildContext (lookupD st1.chat_messages model_id [])) 500 1 with
  | Except.error _ =>
    (setGenerating st1 model_id false,
     [(buildContext (lookupD st1.chat_messages model_id []), 500, 1)])
  | Except.ok generated =>
    match parse_first_message generated with
    | none =>
      (setGenerating st1 model_id false,
       [(buildContext (lookupD st1.chat_messages model_id []), 500, 1)])
    | some draft =>
      (setGenerating
        (appendMessage st1 model_id
          { id := freshId, timestamp := now, sender := draft.sender,
            content := draft.content, isUser := false, createdAt := createdAt })
        model_id false,
       [(buildContext (lookupD st1.chat_messages model_id []), 500, 1)])

/-- `generate_chat_message_background`: the guarded entry followed, when
it proceeds, by the generation body. -/
def generate_chat_message_background (gen : String → Nat → Rat → Except String String)
    (freshId now createdAt : String) (st : ChatState) (model_id : String) :
    ChatState × List GenCall :=
  match triggerBegin st model_id with
  | (st1, true) => triggerBody gen freshId now createdAt st1 model_id
  | (st1, false) => (st1, [])

/-- Two triggers for the same room with the second issued after the
first has begun but before it completes: the first raises the flag,
the second then runs from start to finish, and only then does the body
of the first run.  Returns the final state and the total number of
generator invocations. -/
def twoTriggersOverlapped (gen gen2 : String → Nat → Rat → Except String String)
    (i1 i2 i3 j1 j2 j3 : String) (st : ChatState) (model_id : String) :
    ChatState × Nat :=
  let p1 := triggerBegin st model_id
  let p2 := generate_chat_message_background gen2 j1 j2 j3 p1.1 model_id
  let p3 :=
    if p1.2 then triggerBody gen i1 i2 i3 p2.1 model_id
    else (p2.1, [])
  (p3.1, p2.2.length + p3.2.length)

/-! ### `send_chat_message` -/

/-- The user-send endpoint body for a known room: reject
whitespace-only content, otherwise build the user message from the
stripped inputs and append it.  A fresh id and the two wall-clock
strings are explicit parameters; the triggered follow-up generation is
a separate dispatched task and is modelled by
`generate_chat_message_background` above. -/
def send_chat_message (st : ChatState) (model_id sender content : String)
    (freshId now createdAt : String) : ChatState × Option Message :=
  if model_id ∈ CHAT_MODELS then
    if pyStrip content = "" then (st, none)
    else
      let message : Message :=
        { id := freshId, timestamp := now, sender := pyStrip sender,
          content := pyStrip content, isUser := true, createdAt := createdAt }
      (appendMessage st model_id message, some message)
  else (st, none)

/-! ### PaginationService: `get_chat_messages` -/

/-- The page a read returns: the fields of the response dictionary that
depend on the state (the static room metadata echoed back under the
`model` key is configuration, not behaviour, and is elided). -/
structure PageResult where
  messages : List Message
  isGenerating : Bool
  hasMore : Bool
  oldestMessageId : Option String
  totalCount : Nat
deriving DecidableEq

/-- The Python slice `xs[-limit:]` for a non-negative `limit`; note
that `xs[-0:]` is `xs[0:]`, the whole list, not the empty suffix. -/
def pyTailSlice (limit : Nat) (xs : List α) : List α :=
  if limit = 0 then xs else xs.drop (xs.length - limit)

/-- `all_messages[start_index:before_index]`. -/
def pySliceTo (start stop : Nat) (xs : List α) : List α :=
  (xs.take stop).drop start

/-- The cursor-resolution loop: the index of the first message whose id
equals `before`, if any. -/
def findBeforeIndex (before : String) : List Message → Option Nat
  | [] => none
  | m :: rest =>
    if m.id = before then some 0
    else (findBeforeIndex before rest).map (fun i => i + 1)

/-- The shared no-cursor branch: the latest messages and whether older
ones remain. -/
def latestSlice (limit : Nat) (all_messages : List Message) : List Message × Bool :=
  (if all_messages.length > limit then pyTailSlice limit all_messages else all_messages,
   decide (all_messages.length > limit))

/-- `get_chat_messages`: unknown room gives the error result (`none`);
otherwise resolve the cursor.  A supplied cursor is only honoured when
it is non-empty (the source tests the string's truthiness) and names a
message in the log, in which case the page is the `limit` messages
before it; otherwise the latest messages are returned. -/
def get_chat_messages (st : ChatState) (model_id : String) (limit : Nat)
    (before : Option String) : Option PageResult :=
  if model_id ∈ CHAT_MODELS then
    let all_messages := lookupD st.chat_messages model_id []
    let page :=
      match before with
      | some b =>
        if b ≠ "" then
          match findBeforeIndex b all_messages with
          | some before_index =>
            let start_index := before_index - limit
            (pySliceTo start_index before_index all_messages, decide (start_index > 0))
          | none => latestSlice limit all_messages
        else latestSlice limit all_messages
      | none => latestSlice limit all_messages
    some { messages := page.1
           isGenerating := lookupD st.chat_generating model_id false
           hasMore := page.2
           oldestMessageId := page.1.head?.map (fun (m : Message) => m.id)
           totalCount := all_messages.length }
  else none

/-! ### Persistence: `save_chat_storage` and `load_chat_storage`

The storage file holds one JSON object mapping each room id to its
array of message objects.  The JSON tree is modelled directly; the
textual rendering and re-reading of the tree performed by the `json`
library is its documented identity on trees and is not re-implemented
here.  `open(path, "w")` first truncates the file to length zero and
the serialized text is written afterwards, so a write in progress
passes through a state whose content is not a JSON document at all. -/

/-- The JSON values the storage file uses. -/
inductive JsonVal where
  | jstr (s : String)
  | jbool (b : Bool)
  | jarr (elems : List JsonVal)
  | jobj (fields : List (String × JsonVal))

/-- Field lookup in a JSON object. -/
def jlookup (fields : List (String × JsonVal)) (k : String) : Option JsonVal :=
  match fields with
  | [] => none
  | (k2, v) :: rest => if k2 = k then some v else jlookup rest k

/-- A JSON string, if the value is one. -/
def asStr : JsonVal → Option String
  | JsonVal.jstr s => some s
  | _ => none

/-- A JSON boolean, if the value is one. -/
def asBool : JsonVal → Option Bool
  | JsonVal.jbool b => some b
  | _ => none

/-- The JSON object `json.dump` writes for one message. -/
def encodeMessage (m : Message) : JsonVal :=
  JsonVal.jobj
    [("id", JsonVal.jstr m.id),
     ("timestamp", JsonVal.jstr m.timestamp),
     ("sender", JsonVal.jstr m.sender),
     ("content", JsonVal.jstr m.content),
     ("isUser", JsonVal.jbool m.isUser),
     ("createdAt", JsonVal.jstr m.createdAt)]

/-- The typed reading of one stored message object, by the field
accesses the rest of the module performs on loaded messages. -/
def decodeMessage (j : JsonVal) : Option Message :=
  match j with
  | JsonVal.jobj fs => do
    let id ← (jlookup fs "id").bind asStr
    let timestamp ← (jlookup fs "timestamp").bind asStr
    let sender ← (jlookup fs "sender").bind asStr
    let content ← (jlookup fs "content").bind asStr
    let isUser ← (jlookup fs "isUser").bind asBool
    let createdAt ← (jlookup fs "createdAt").bind asStr
    pure { id := id, timestamp := timestamp, sender := sender,
           content := content, isUser := isUser, createdAt := createdAt }
  | _ => none

/-- Decode a stored message array. -/
def decodeMessageList : List JsonVal → Option (List Message)
  | [] => some []
  | j :: rest => do
    let m ← decodeMessage j
    let ms ← decodeMessageList rest
    pure (m :: ms)

/-- The per-room message map as persisted. -/
abbrev StorageMap : Type := List (String × List Message)

/-- The JSON object `json.dump(chat_messages, ...)` writes. -/
def encodeStorage (m : StorageMap) : JsonVal :=
  JsonVal.jobj (m.map (fun kv => (kv.1, JsonVal.jarr (kv.2.map encodeMessage))))

/-- Decode the room-to-array fields of the storage object. -/
def decodeStorageFields : List (String × JsonVal) → Option StorageMap
  | [] => some []
  | (k, v) :: rest =>
    match v with
    | JsonVal.jarr es => do
      let ms ← decodeMessageList es
      let tail ← decodeStorageFields rest
      pure ((k, ms) :: tail)
    | _ => none

/-- Decode a whole storage file. -/
def decodeStorage (j : JsonVal) : Option StorageMap :=
  match j with
  | JsonVal.jobj fs => decodeStorageFields fs
  | _ => none

/-- The observable content of the storage file: absent, truncated by an
interrupted write (not a JSON document), or a complete JSON tree. -/
inductive FileState where
  | missing
  | truncated
  | snapshot (j : JsonVal)

/-- The file a completed `save_chat_storage()` leaves behind: the full
serialization of the in-memory map. -/
def save_chat_storage (m : StorageMap) : FileState :=
  FileState.snapshot (encodeStorage m)

/-- The sequence of file contents an observer can see during
`save_chat_storage`: the previous content, then the truncated file
`open(path, "w")` creates, then the completed dump. -/
def saveWriteSequence (old : FileState) (m : StorageMap) : List FileState :=
  [old, FileState.truncated, save_chat_storage m]

/-- Written from the words of the specification, for comparison with
the code: a save is atomic when every file content observable during
it is either the previous content or the completed new snapshot. -/
def atomicSaveSpec (old : FileState) (m : StorageMap) : Prop :=
  ∀ f ∈ saveWriteSequence old m, f = old ∨ f = save_chat_storage m

/-- `load_chat_storage` followed by the per-model initialisation loop:
a missing file or an unreadable one (the truncated state) yields the
empty map, a readable snapshot is loaded as is; afterwards every
configured room missing from the map is given an empty log and every
configured room's flag is cleared. -/
def load_chat_storage (file : FileState) : ChatState :=
  let loaded : StorageMap :=
    match file with
    | FileState.missing => []
    | FileState.truncated => []
    | FileState.snapshot j => (decodeStorage j).getD []
  { chat_messages :=
      CHAT_MODELS.foldl
        (fun m model_id =>
          if m.any (fun kv => kv.1 = model_id) then m else m ++ [(model_id, [])])
        loaded
    chat_generating := CHAT_MODELS.foldl (fun g model_id => setK g model_id false) [] }

/-! ### Sample data used by concrete counterexamples and witnesses -/

/-- A sample stored message. -/
def msgA : Message :=
  { id := "m0", timestamp := "[01/01/2024, 10:00:00]", sender := "A",
    content := "hi", isUser := true, createdAt := "2024-01-01T10:00:05" }

/-- A state whose configured room holds exactly `msgA`. -/
def stOne : ChatState :=
  { chat_messages := [("kxhl-1", [msgA])], chat_generating := [("kxhl-1", false)] }

/-- A sample message with a chosen id, for pagination inputs. -/
def mkMsg (i : String) : Message :=
  { id := i, timestamp := "[02/01/2024, 11:00:00]", sender := "B",
    content := "ok", isUser := false, createdAt := "2024-01-02T11:00:05" }

/-! ### Association-list lemmas -/

theorem lookupD_setK_self (l : List (String × α)) (k : String) (v d : α) :
    lookupD (setK l k v) k d = v := by
  induction l with
  | nil => simp [setK, lookupD]
  | cons h t ih =>
    by_cases hk : h.1 = k
    · simp [setK, hk, lookupD]
    · have hd2 : (decide (h.1 = k)) = false := decide_eq_false hk
      simpa [setK, hk, lookupD, hd2] using ih

theorem lookupD_eq_default_of_not_mem (l : List (String × α)) (k : String) (d : α)
    (h : l.any (fun kv => kv.1 = k) = false) : lookupD l k d = d := by
  induction l with
  | nil => rfl
  | cons hd t ih =>
    simp only [List.any_cons, Bool.or_eq_false_iff, decide_eq_false_iff_not] at h
    simp [lookupD, h.1, ih (by simpa using h.2)]

theorem lookupD_append_of_mem (l l2 : List (String × α)) (k : String) (d : α)
    (h : l.any (fun kv => kv.1 = k) = true) :
    lookupD (l ++ l2) k d = lookupD l k d := by
  induction l with
  | nil => simp at h
  | cons hd t ih =>
    obtain ⟨k2, v2⟩ := hd
    by_cases hk : k2 = k
    · simp [lookupD, hk]
    · simp only [List.any_cons, decide_eq_true_eq, Bool.or_eq_true] at h
      rcases h with h | h

      · exact absurd h hk
      · simp [lookupD, hk, ih h]

theorem lookupD_append_of_not_mem (l l2 : List (String × α)) (k : String) (d : α)
    (h : l.any (fun kv => kv.1 = k) = false) :
    lookupD (l ++ l2) k d = lookupD l2 k d := by
  induction l with
  | nil => simp [lookupD]
  | cons hd t ih =>
    obtain ⟨k2, v2⟩ := hd
    simp only [List.any_cons, Bool.or_eq_false_iff, decide_eq_false_iff_not] at h
    simp [lookupD, h.1, ih (by simpa using h.2)]

/-! ### Coordinator lemmas -/

/-- A trigger on a room whose flag is already raised changes nothing and
performs no generator call. -/
theorem generate_noop_of_generating (gen : String → Nat → Rat → Except String String)
    (i1 i2 i3 : String) (st : ChatState) (model_id : String)
    (h : lookupD st.chat_generating model_id false = true) :
    generate_chat_message_background gen i1 i2 i3 st model_id = (st, []) := by
  by_cases hm : model_id ∈ CHAT_MODELS <;>
    simp [generate_chat_message_background, triggerBegin, hm, h]

/-- The body makes exactly the one generator call, with the context
built from the room's log. -/
theorem triggerBody_calls (gen : String → Nat → Rat → Except String String)
    (i1 i2 i3 : String) (st1 : ChatState) (model_id : String) :
    (triggerBody gen i1 i2 i3 st1 model_id).2 =
      [(buildContext (lookupD st1.chat_messages model_id []), 500, 1)] := by
  unfold triggerBody
  split
  · rfl
  · split <;> rfl

/-- Every exit of the body leaves the flag cleared. -/
theorem triggerBody_clears_flag (gen : String → Nat → Rat → Except String String)
    (i1 i2 i3 : String) (st1 : ChatState) (model_id : String) :
    lookupD (triggerBody gen i1 i2 i3 st1 model_id).1.chat_generating model_id false = false := by
  unfold triggerBody
  split
  · simp [setGenerating, lookupD_setK_self]
  · split <;> simp [setGenerating, lookupD_setK_self]

/-- On a generator error the body leaves the message log untouched. -/
theorem triggerBody_error_messages (gen : String → Nat → Rat → Except String String)
    (i1 i2 i3 : String) (st1 : ChatState) (model_id : String) (e : String)
    (h : gen (buildContext (lookupD st1.chat_messages model_id [])) 500 1 = Except.error e) :
    (triggerBody gen i1 i2 i3 st1 model_id).1.chat_messages = st1.chat_messages := by
  unfold triggerBody
  simp only [h]
  rfl

/-- When the room is known and idle, the trigger proceeds through the
body on the flag-raised state. -/
theorem generate_eq_body (gen : String → Nat → Rat → Except String String)
    (i1 i2 i3 : String) (st : ChatState) (model_id : String)
    (hm : model_id ∈ CHAT_MODELS)
    (h : lookupD st.chat_generating model_id false = false) :
    generate_chat_message_background gen i1 i2 i3 st model_id =
      triggerBody gen i1 i2 i3 (setGenerating st model_id true) model_id := by
  simp [generate_chat_message_background, triggerBegin, hm, h]

/-- C1.  Single-flight: a trigger for a room whose generating flag is
already raised performs no state transition, no generator call and no
append; and of two triggers for the same idle room, the second issued
before the first completes, exactly one generator invocation happens in
total. -/
theorem single_flight :
    (∀ gen i1 i2 i3 (st : ChatState) model_id,
        lookupD st.chat_generating model_id false = true →
        generate_chat_message_background gen i1 i2 i3 st model_id = (st, [])) ∧
    (∀ gen gen2 i1 i2 i3 j1 j2 j3 (st : ChatState) model_id,
        model_id ∈ CHAT_MODELS →
        lookupD st.chat_generating model_id false = false →
        (twoTriggersOverlapped gen gen2 i1 i2 i3 j1 j2 j3 st model_id).2 = 1) := by
  constructor
  · exact fun gen i1 i2 i3 st model_id h => generate_noop_of_generating gen i1 i2 i3 st model_id h
  · intro gen gen2 i1 i2 i3 j1 j2 j3 st model_id hm h
    have hbegin : triggerBegin st model_id = (setGenerating st model_id true, true) := by
      simp [triggerBegin, hm, h]
    have hraised : lookupD (setGenerating st model_id true).chat_generating model_id false = true := by
      simp [setGenerating, lookupD_setK_self]
    have hsecond := generate_noop_of_generating gen2 j1 j2 j3
      (setGenerating st model_id true) model_id hraised
    simp [twoTriggersOverlapped, hbegin, hsecond, triggerBody_calls]

/-- Witness for C1 at concrete states: a busy room ignores the trigger,
and the overlapped pair of triggers on an idle room makes one call. -/
theorem single_flight_witness :
    (lookupD (ChatState.mk [("kxhl-1", [])] [("kxhl-1", true)]).chat_generating "kxhl-1" false = true ∧
     generate_chat_message_background (fun _ _ _ => Except.ok "") "i" "t" "c"
       (ChatState.mk [("kxhl-1", [])] [("kxhl-1", true)]) "kxhl-1" =
       (ChatState.mk [("kxhl-1", [])] [("kxhl-1", true)], [])) ∧
    ("kxhl-1" ∈ CHAT_MODELS ∧
     lookupD initialChatState.chat_generating "kxhl-1" false = false ∧
     (twoTriggersOverlapped (fun _ _ _ => Except.ok "") (fun _ _ _ => Except.ok "")
       "a" "b" "c" "d" "e" "f" initialChatState "kxhl-1").2 = 1) :=
  ⟨⟨by decide, single_flight.1 _ _ _ _ _ _ (by decide)⟩,
   ⟨by decide, by decide,
    single_flight.2 _ _ _ _ _ _ _ _ _ _ (by decide) (by decide)⟩⟩

/-- C3.  Failure recovery: an attempt on a known idle room always ends
with the generating flag cleared — on success, on parser rejection and
on a generator exception — and when the generator call throws the
room's message log is exactly what it was before the attempt. -/
theorem generation_failure_recovery :
    ∀ gen i1 i2 i3 (st : ChatState) model_id,
      model_id ∈ CHAT_MODELS →
      lookupD st.chat_generating model_id false = false →
      lookupD (generate_chat_message_background gen i1 i2 i3 st model_id).1.chat_generating
        model_id false = false ∧
      (∀ e, gen (buildContext (lookupD st.chat_messages model_id [])) 500 1 = Except.error e →
        (generate_chat_message_background gen i1 i2 i3 st model_id).1.chat_messages =
          st.chat_messages) := by
  intro gen i1 i2 i3 st model_id hm h
  rw [generate_eq_body gen i1 i2 i3 st model_id hm h]
  refine ⟨triggerBody_clears_flag gen i1 i2 i3 _ model_id, ?_⟩
  intro e he
  have hmsg : (setGenerating st model_id true).chat_messages = st.chat_messages := rfl
  rw [triggerBody_error_messages gen i1 i2 i3 _ model_id e (by rw [hmsg]; exact he)]
  exact hmsg

/-- Witness for C3: a generator that throws leaves the one-message room
unchanged and idle. -/
theorem generation_failure_recovery_witness :
    "kxhl-1" ∈ CHAT_MODELS ∧
    lookupD stOne.chat_generating "kxhl-1" false = false ∧
    (lookupD (generate_chat_message_background (fun _ _ _ => Except.error "boom")
        "i" "t" "c" stOne "kxhl-1").1.chat_generating "kxhl-1" false = false ∧
     (generate_chat_message_background (fun _ _ _ => Except.error "boom")
        "i" "t" "c" stOne "kxhl-1").1.chat_messages = stOne.chat_messages) :=
  ⟨by decide, by decide,
   (generation_failure_recovery _ _ _ _ _ _ (by decide) (by decide)).1,
   (generation_failure_recovery _ _ _ _ _ _ (by decide) (by decide)).2 "boom" rfl⟩

/-! ### C9: context construction -/

/-- The per-message rendering named by the specification. -/
def renderedLine (m : Message) : String :=
  m.timestamp ++ " " ++ m.sender ++ ": " ++ m.content

/-- Written from the words of the specification, for comparison with
the code: the last ten messages rendered and joined by newlines. -/
def contextSpecJoined (messages : List Message) : String :=
  String.intercalate "\n" ((messages.drop (messages.length - 10)).map renderedLine)

/-- The context the code builds is the concatenation of the rendered
last ten messages, each terminated by a newline. -/
theorem buildContext_eq_join (messages : List Message) :
    buildContext messages =
      String.join ((messages.drop (messages.length - 10)).map
        (fun m => renderedLine m ++ "\n")) := by
  unfold buildContext String.join renderedLine
  rw [List.foldl_map]

/-- C9 counterexample: on a room holding the single message `msgA`, the
attempt calls the generator with the newline-terminated rendering of
that message, which differs from the newline-joined form the claim
names. -/
theorem context_construction_counterexample :
    (generate_chat_message_background (fun _ _ _ => Except.ok "") "i" "t" "c"
        stOne "kxhl-1").2.map (fun c => c.1) = ["[01/01/2024, 10:00:00] A: hi\n"] ∧
    contextSpecJoined (lookupD stOne.chat_messages "kxhl-1" []) =
      "[01/01/2024, 10:00:00] A: hi" ∧
    ("[01/01/2024, 10:00:00] A: hi\n" : String) ≠ "[01/01/2024, 10:00:00] A: hi" := by
  refine ⟨by decide, ?_, by decide⟩
  decide

/-- C9 (amended).  Every attempt on a known idle room makes exactly one
generator call, whose context is the last (up to) ten messages of the
room, oldest first, each rendered as the display timestamp, sender and
content and terminated by a newline, with a token budget of 500 and
temperature 1. -/
theorem context_construction_amended :
    ∀ gen i1 i2 i3 (st : ChatState) model_id,
      model_id ∈ CHAT_MODELS →
      lookupD st.chat_generating model_id false = false →
      (generate_chat_message_background gen i1 i2 i3 st model_id).2 =
        [(String.join (((lookupD st.chat_messages model_id []).drop
            ((lookupD st.chat_messages model_id []).length - 10)).map
            (fun m => renderedLine m ++ "\n")), 500, 1)] := by
  intro gen i1 i2 i3 st model_id hm h
  rw [generate_eq_body gen i1 i2 i3 st model_id hm h, triggerBody_calls]
  have hmsg : lookupD (setGenerating st model_id true).chat_messages model_id [] =
      lookupD st.chat_messages model_id [] := rfl
  rw [hmsg, buildContext_eq_join]

/-- Witness for the amended C9 at the one-message room. -/
theorem context_construction_amended_witness :
    "kxhl-1" ∈ CHAT_MODELS ∧
    lookupD stOne.chat_generating "kxhl-1" false = false ∧
    (generate_chat_message_background (fun _ _ _ => Except.error "x") "i" "t" "c"
        stOne "kxhl-1").2 =
      [(String.join (((lookupD stOne.chat_messages "kxhl-1" []).drop
          ((lookupD stOne.chat_messages "kxhl-1" []).length - 10)).map
          (fun m => renderedLine m ++ "\n")), 500, 1)] :=
  ⟨by decide, by decide,
   context_construction_amended _ _ _ _ _ _ (by decide) (by decide)⟩


/-! ### Pagination lemmas -/

/-- A three-message room used by pagination witnesses. -/
def stThree : ChatState :=
  { chat_messages := [("kxhl-1", [mkMsg "m0", mkMsg "m1", mkMsg "m2"])]
    chat_generating := [("kxhl-1", false)] }

/-- A two-message room used by pagination witnesses. -/
def stTwo : ChatState :=
  { chat_messages := [("kxhl-1", [mkMsg "m0", mkMsg "m1"])]
    chat_generating := [("kxhl-1", false)] }

theorem findBeforeIndex_eq_some (before : String) (xs : List Message) (i : Nat)
    (h1 : (xs.map (fun m => m.id))[i]? = some before)
    (h2 : ∀ j, j < i → (xs.map (fun m => m.id))[j]? ≠ some before) :
    findBeforeIndex before xs = some i := by
  induction xs generalizing i with
  | nil => simp at h1
  | cons hd t ih =>
    cases i with
    | zero =>
      simp only [List.map_cons, List.getElem?_cons_zero, Option.some.injEq] at h1
      simp [findBeforeIndex, h1]
    | succ n =>
      have hne : hd.id ≠ before := by
        intro hcontra
        exact h2 0 (Nat.succ_pos n) (by simp [hcontra])
      have h1t : (t.map (fun m => m.id))[n]? = some before := by
        simpa using h1
      have h2t : ∀ j, j < n → (t.map (fun m => m.id))[j]? ≠ some before := by
        intro j hj hcontra
        exact h2 (j + 1) (Nat.succ_lt_succ hj) (by simpa using hcontra)
      simp [findBeforeIndex, hne, ih n h1t h2t]

theorem findBeforeIndex_eq_none (before : String) (xs : List Message)
    (h : ∀ m ∈ xs, m.id ≠ before) :
    findBeforeIndex before xs = none := by
  induction xs with
  | nil => rfl
  | cons hd t ih =>
    simp [findBeforeIndex, h hd (List.mem_cons_self hd t),
      ih (fun m hm => h m (List.mem_cons_of_mem hd hm))]

/-- For a positive limit both branches of the no-cursor slice are the
`length - limit` drop, and older messages remain exactly when the log
is longer than the limit. -/
theorem latestSlice_pos (limit : Nat) (hpos : 0 < limit) (xs : List Message) :
    latestSlice limit xs = (xs.drop (xs.length - limit), decide (limit < xs.length)) := by
  unfold latestSlice pyTailSlice
  by_cases hlen : xs.length > limit
  · simp [hlen, Nat.pos_iff_ne_zero.mp hpos]
  · have hzero : xs.length - limit = 0 := by omega
    simp [hlen, hzero]

/-- C2.  Cursor pagination: for a known room, a positive limit and a
cursor that occurs first at index `i` of the log, the page is the slice
from `max 0 (i - limit)` up to but excluding `i`, in order, older
messages remain exactly when `i > limit`, the oldest id is the head of
the returned slice, and the total count is the unfiltered length. -/
theorem cursor_pagination :
    ∀ (st : ChatState) model_id limit b i,
      model_id ∈ CHAT_MODELS → 0 < limit → b ≠ "" →
      ((lookupD st.chat_messages model_id []).map (fun m => m.id))[i]? = some b →
      (∀ j, j < i →
        ((lookupD st.chat_messages model_id []).map (fun m => m.id))[j]? ≠ some b) →
      get_chat_messages st model_id limit (some b) =
        some { messages := pySliceTo (i - limit) i (lookupD st.chat_messages model_id [])
               isGenerating := lookupD st.chat_generating model_id false
               hasMore := decide (limit < i)
               oldestMessageId :=
                 (pySliceTo (i - limit) i (lookupD st.chat_messages model_id [])).head?.map
                   (fun (m : Message) => m.id)
               totalCount := (lookupD st.chat_messages model_id []).length } := by
  intro st model_id limit b i hm hpos hb h1 h2
  have hfound := findBeforeIndex_eq_some b (lookupD st.chat_messages model_id []) i h1 h2
  have hmore : (decide (i - limit > 0)) = (decide (limit < i)) := by
    rw [decide_eq_decide]
    omega
  simp only [get_chat_messages, if_pos hm, hfound]
  rw [if_pos hb]
  simp only [hmore]

/-- Witness for C2: in a three-message room, paging before the third
message with limit 1 returns just the second message. -/
theorem cursor_pagination_witness :
    "kxhl-1" ∈ CHAT_MODELS ∧ (0 : Nat) < 1 ∧ ("m2" : String) ≠ "" ∧
    ((lookupD stThree.chat_messages "kxhl-1" []).map (fun m => m.id))[2]? = some "m2" ∧
    (∀ j, j < 2 →
      ((lookupD stThree.chat_messages "kxhl-1" []).map (fun m => m.id))[j]? ≠ some "m2") ∧
    get_chat_messages stThree "kxhl-1" 1 (some "m2") =
      some { messages := [mkMsg "m1"], isGenerating := false, hasMore := true,
             oldestMessageId := some "m1", totalCount := 3 } :=
  ⟨by decide, by decide, by decide, by decide, by decide,
   (cursor_pagination stThree "kxhl-1" 1 "m2" 2 (by decide) (by decide) (by decide)
      (by decide) (by decide)).trans (by decide)⟩

/-- C7.  No-cursor pagination and cursor fallback: for a known room and
a positive limit, when no cursor is supplied, or the supplied cursor is
not the id of any message of the room, the page is the last
`min limit total` messages in chronological order, older messages
remain exactly when the log is longer than the limit, and the total
count is the unfiltered length. -/
theorem latest_pagination :
    ∀ (st : ChatState) model_id limit before,
      model_id ∈ CHAT_MODELS → 0 < limit →
      (before = none ∨
        ∃ b, before = some b ∧
          ∀ m ∈ lookupD st.chat_messages model_id [], m.id ≠ b) →
      ∃ r, get_chat_messages st model_id limit before = some r ∧
        r.messages = (lookupD st.chat_messages model_id []).drop
          ((lookupD st.chat_messages model_id []).length - limit) ∧
        r.messages.length = min limit (lookupD st.chat_messages model_id []).length ∧
        r.hasMore = decide (limit < (lookupD st.chat_messages model_id []).length) ∧
        r.totalCount = (lookupD st.chat_messages model_id []).length := by
  intro st model_id limit before hm hpos hbefore
  have hlen : ((lookupD st.chat_messages model_id []).drop
      ((lookupD st.chat_messages model_id []).length - limit)).length =
      min limit (lookupD st.chat_messages model_id []).length := by
    simp only [List.length_drop]
    omega
  have heq : get_chat_messages st model_id limit before = some
      { messages := (lookupD st.chat_messages model_id []).drop
          ((lookupD st.chat_messages model_id []).length - limit)
        isGenerating := lookupD st.chat_generating model_id false
        hasMore := decide (limit < (lookupD st.chat_messages model_id []).length)
        oldestMessageId := ((lookupD st.chat_messages model_id []).drop
          ((lookupD st.chat_messages model_id []).length - limit)).head?.map
            (fun (m : Message) => m.id)
        totalCount := (lookupD st.chat_messages model_id []).length } := by
    rcases hbefore with rfl | ⟨b, rfl, hnot⟩
    · simp only [get_chat_messages, if_pos hm, latestSlice_pos limit hpos]
    · by_cases hb : b = ""
      · subst hb
        simp only [get_chat_messages, if_pos hm]
        rw [if_neg (by simp), latestSlice_pos limit hpos]
      · have hnone := findBeforeIndex_eq_none b (lookupD st.chat_messages model_id []) hnot
        simp only [get_chat_messages, if_pos hm, hnone]
        rw [if_pos hb]
        simp only [latestSlice_pos limit hpos]
  exact ⟨_, heq, rfl, hlen, rfl, rfl⟩

/-- Witness for C7: a two-message room with limit 5 and no cursor
returns both messages and reports no further history. -/
theorem latest_pagination_witness :
    "kxhl-1" ∈ CHAT_MODELS ∧ (0 : Nat) < 5 ∧
    (∃ r, get_chat_messages stTwo "kxhl-1" 5 none = some r ∧
      r.messages = (lookupD stTwo.chat_messages "kxhl-1" []).drop
        ((lookupD stTwo.chat_messages "kxhl-1" []).length - 5) ∧
      r.messages.length = min 5 (lookupD stTwo.chat_messages "kxhl-1" []).length ∧
      r.hasMore = decide (5 < (lookupD stTwo.chat_messages "kxhl-1" []).length) ∧
      r.totalCount = (lookupD stTwo.chat_messages "kxhl-1" []).length) :=
  ⟨by decide, by decide,
   latest_pagination stTwo "kxhl-1" 5 none (by decide) (by decide) (Or.inl rfl)⟩

/-- C10.  With `limit = 0` and no cursor the endpoint returns the whole
log of the room — the Python slice with a negated zero lower bound is
the entire list — and `hasMore` is true exactly when the room is
non-empty, even though every message was already returned. -/
theorem zero_limit_lists_all :
    ∀ (st : ChatState) model_id,
      model_id ∈ CHAT_MODELS →
      ∃ r, get_chat_messages st model_id 0 none = some r ∧
        r.messages = lookupD st.chat_messages model_id [] ∧
        r.hasMore = decide (0 < r.totalCount) ∧
        r.totalCount = (lookupD st.chat_messages model_id []).length := by
  intro st model_id hm
  have heq : get_chat_messages st model_id 0 none = some
      { messages := lookupD st.chat_messages model_id []
        isGenerating := lookupD st.chat_generating model_id false
        hasMore := decide ((lookupD st.chat_messages model_id []).length > 0)
        oldestMessageId := (lookupD st.chat_messages model_id []).head?.map
          (fun (m : Message) => m.id)
        totalCount := (lookupD st.chat_messages model_id []).length } := by
    simp [get_chat_messages, if_pos hm, latestSlice, pyTailSlice]
  exact ⟨_, heq, rfl, rfl, rfl⟩

/-- Witness for C10: the one-message room returns its whole log with
`hasMore` set. -/
theorem zero_limit_lists_all_witness :
    "kxhl-1" ∈ CHAT_MODELS ∧
    (∃ r, get_chat_messages stOne "kxhl-1" 0 none = some r ∧
      r.messages = lookupD stOne.chat_messages "kxhl-1" [] ∧
      r.hasMore = decide (0 < r.totalCount) ∧
      r.totalCount = (lookupD stOne.chat_messages "kxhl-1" []).length) :=
  ⟨by decide, zero_limit_lists_all stOne "kxhl-1" (by decide)⟩

/-! ### Persistence lemmas -/

theorem decodeMessage_encodeMessage (m : Message) :
    decodeMessage (encodeMessage m) = some m := rfl

theorem decodeMessageList_map (l : List Message) :
    decodeMessageList (l.map encodeMessage) = some l := by
  induction l with
  | nil => rfl
  | cons h t ih => simp [decodeMessageList, decodeMessage_encodeMessage, ih]

theorem decodeStorage_encodeStorage (m : StorageMap) :
    decodeStorage (encodeStorage m) = some m := by
  induction m with
  | nil => rfl
  | cons h t ih =>
    simp only [encodeStorage, List.map_cons, decodeStorage, decodeStorageFields,
      decodeMessageList_map, Option.bind_eq_bind, Option.some_bind]
    simp only [encodeStorage, decodeStorage] at ih
    simp [ih]

/-- C5 counterexample: on a storage map already persisted once, a crash
between the truncation and the write exposes a file that is neither the
previous snapshot nor the new one, so the save of the source is not
atomic. -/
theorem save_atomicity_counterexample :
    ¬ atomicSaveSpec (FileState.snapshot (encodeStorage [("kxhl-1", [msgA])]))
        [("kxhl-1", [msgA])] := by
  intro h
  have hmem := h FileState.truncated (by simp [saveWriteSequence])
  rcases hmem with h1 | h1
  · exact FileState.noConfusion h1
  · exact FileState.noConfusion h1

/-- C5 (amended).  A completed save leaves the full, internally
consistent serialization of the in-memory state — readers of the
finished file recover every room's log — but the write happens in
place: the file passes through a truncated state, so whenever the
previous content is anything other than that degenerate state, the save
is not atomic. -/
theorem save_persistence_amended :
    ∀ (old : FileState) (m : StorageMap),
      (saveWriteSequence old m).getLast? = some (FileState.snapshot (encodeStorage m)) ∧
      decodeStorage (encodeStorage m) = some m ∧
      (old ≠ FileState.truncated → ¬ atomicSaveSpec old m) := by
  intro old m
  refine ⟨rfl, decodeStorage_encodeStorage m, ?_⟩
  intro hne hat
  have hmem := hat FileState.truncated (by simp [saveWriteSequence])
  rcases hmem with h1 | h1
  · exact hne h1.symm
  · exact FileState.noConfusion h1

/-- Witness for the amended C5, starting from a missing file. -/
theorem save_persistence_amended_witness :
    (saveWriteSequence FileState.missing [("kxhl-1", [msgA])]).getLast? =
      some (FileState.snapshot (encodeStorage [("kxhl-1", [msgA])])) ∧
    decodeStorage (encodeStorage [("kxhl-1", [msgA])]) = some [("kxhl-1", [msgA])] ∧
    ¬ atomicSaveSpec FileState.missing [("kxhl-1", [msgA])] :=
  ⟨(save_persistence_amended FileState.missing [("kxhl-1", [msgA])]).1,
   (save_persistence_amended FileState.missing [("kxhl-1", [msgA])]).2.1,
   (save_persistence_amended FileState.missing [("kxhl-1", [msgA])]).2.2
     (fun h => FileState.noConfusion h)⟩

/-- C8.  Round-trip: saving the in-memory map and loading the resulting
file reproduces an identical ordered message list for every room (rooms
absent from both sides read as the empty log). -/
theorem save_load_round_trip :
    ∀ (m : StorageMap) (room : String),
      lookupD (load_chat_storage (save_chat_storage m)).chat_messages room [] =
        lookupD m room [] := by
  intro m room
  have hload : (load_chat_storage (save_chat_storage m)).chat_messages =
      (if m.any (fun kv => kv.1 = "kxhl-1") then m else m ++ [("kxhl-1", [])]) := by
    simp [load_chat_storage, save_chat_storage, decodeStorage_encodeStorage, CHAT_MODELS,
      List.foldl_cons, List.foldl_nil]
  rw [hload]
  by_cases hany : m.any (fun kv => kv.1 = "kxhl-1") = true
  · rw [if_pos hany]
  · rw [if_neg hany]
    by_cases hmem : m.any (fun kv => kv.1 = room) = true
    · rw [lookupD_append_of_mem _ _ _ _ hmem]
    · have hmem2 : m.any (fun kv => kv.1 = room) = false := Bool.eq_false_iff.mpr hmem
      rw [lookupD_append_of_not_mem _ _ _ _ hmem2,
        lookupD_eq_default_of_not_mem _ _ _ hmem2]
      simp [lookupD]

/-! ### Parser lemmas -/

theorem processLine_nil : processLine [] = none := rfl

/-- The line loop is a first-match scan: the first line whose stripped
form the pattern-and-validation step accepts wins, and later lines are
never inspected. -/
theorem firstDraftOfLines_eq_findSome (ls : List (List Char)) :
    firstDraftOfLines ls = ls.findSome? (fun l => processLine (pyStripL l)) := by
  induction ls with
  | nil => rfl
  | cons l rest ih =>
    by_cases hE : (pyStripL l).isEmpty
    · have hnil : pyStripL l = [] := List.isEmpty_iff.mp hE
      simp [firstDraftOfLines, List.findSome?_cons, hE, hnil, processLine_nil, ih]
    · simp only [firstDraftOfLines, hE, if_false, List.findSome?_cons]
      cases hP : processLine (pyStripL l) <;> simp [hP, ih]

/-- C6.  Parser behaviour: the first-match scan over lines, with the
two concrete behaviours the specification names — a valid line among
noise yields the Alice draft, and a system announcement about
encryption yields nothing. -/
theorem parser_first_valid_line :
    parse_first_message
        "random noise\n[01/01/2024, 10:00:00] Alice: hello there\nmore noise" =
      some { timestamp := "[01/01/2024, 10:00:00]", sender := "Alice",
             content := "hello there" } ∧
    parse_first_message
        "[01/01/2024, 10:00:00] Kings Cross Hack Lab: Messages are now encrypted" =
      none ∧
    ∀ text, parse_first_message text =
      (pySplitLines text.data).findSome? (fun l => processLine (pyStripL l)) :=
  ⟨by decide, by decide, fun text => firstDraftOfLines_eq_findSome (pySplitLines text.data)⟩

/-! ### Stripping lemmas and message-field properties -/

theorem pyStripL_eq_rdropWhile (cs : List Char) :
    pyStripL cs = List.rdropWhile pySpace (List.dropWhile pySpace cs) := rfl

theorem dropWhile_head_not (p : α → Bool) (l : List α) (c : α)
    (h : (List.dropWhile p l).head? = some c) : p c = false := by
  induction l with
  | nil => simp [List.dropWhile] at h
  | cons a t ih =>
    rw [List.dropWhile_cons] at h
    by_cases hp : p a
    · rw [if_pos hp] at h
      exact ih h
    · rw [if_neg hp] at h
      simp only [List.head?_cons, Option.some.injEq] at h
      subst h
      exact Bool.eq_false_iff.mpr hp

theorem dropWhile_eq_self_of_head (p : α → Bool) (l : List α)
    (h : ∀ c, l.head? = some c → p c = false) : List.dropWhile p l = l := by
  cases l with
  | nil => rfl
  | cons a t => rw [List.dropWhile_cons, if_neg (by simp [h a rfl])]

theorem pyStripL_idem (cs : List Char) : pyStripL (pyStripL cs) = pyStripL cs := by
  rw [pyStripL_eq_rdropWhile, pyStripL_eq_rdropWhile]
  have h1 : List.dropWhile pySpace (List.rdropWhile pySpace (List.dropWhile pySpace cs)) =
      List.rdropWhile pySpace (List.dropWhile pySpace cs) := by
    apply dropWhile_eq_self_of_head
    intro c hc
    obtain ⟨t, ht⟩ := List.rdropWhile_prefix pySpace (List.dropWhile pySpace cs)
    have hA : (List.dropWhile pySpace cs).head? = some c := by
      rw [← ht]
      cases hX : List.rdropWhile pySpace (List.dropWhile pySpace cs) with
      | nil =>
        rw [hX] at hc
        simp at hc
      | cons a l =>
        rw [hX] at hc
        simpa using hc
    exact dropWhile_head_not pySpace cs c hA
  rw [h1, List.rdropWhile_idempotent]

theorem pyStrip_idem (s : String) : pyStrip (pyStrip s) = pyStrip s := by
  unfold pyStrip
  exact congrArg String.mk (pyStripL_idem s.data)

theorem stringMk_length (cs : List Char) : (String.mk cs).length = cs.length := rfl

/-- Any draft the validation step lets through carries a trimmed
content of length at least two. -/
theorem draftOfGroups_content (g : RawMatch) (d : Draft)
    (h : draftOfGroups g = some d) :
    d.content = pyStrip d.content ∧ 2 ≤ d.content.length := by
  simp only [draftOfGroups] at h
  split at h
  · exact absurd h (by simp)
  · split at h
    · exact absurd h (by simp)
    · rename_i hshort
      injection h with h
      subst h
      constructor
      · show String.mk (pyStripL g.rawContent) = pyStrip (String.mk (pyStripL g.rawContent))
        unfold pyStrip
        exact (congrArg String.mk (pyStripL_idem g.rawContent)).symm
      · show 2 ≤ (String.mk (pyStripL g.rawContent)).length
        rw [stringMk_length]
        omega

/-- Any draft the line step returns satisfies the content checks. -/
theorem processLine_content (cs : List Char) (d : Draft) (h : processLine cs = some d) :
    d.content = pyStrip d.content ∧ 2 ≤ d.content.length := by
  unfold processLine at h
  cases h1 : matchChatLine true cs with
  | some g =>
    simp only [h1] at h
    cases h2 : draftOfGroups g with
    | some d2 =>
      simp only [h2] at h
      injection h with h
      subst h
      exact draftOfGroups_content g d2 h2
    | none =>
      simp only [h2] at h
      cases h3 : matchChatLine false cs with
      | some g2 =>
        simp only [h3] at h
        exact draftOfGroups_content g2 d h
      | none =>
        simp only [h3] at h
        exact Option.noConfusion h
  | none =>
    simp only [h1] at h
    cases h3 : matchChatLine false cs with
    | some g2 =>
      simp only [h3] at h
      exact draftOfGroups_content g2 d h
    | none =>
      simp only [h3] at h
      exact Option.noConfusion h

/-- Any draft the whole parser returns satisfies the content checks. -/
theorem firstDraftOfLines_content (ls : List (List Char)) (d : Draft)
    (h : firstDraftOfLines ls = some d) :
    d.content = pyStrip d.content ∧ 2 ≤ d.content.length := by
  induction ls with
  | nil => exact absurd h (by simp [firstDraftOfLines])
  | cons l rest ih =>
    simp only [firstDraftOfLines] at h
    by_cases hE : (pyStripL l).isEmpty
    · rw [if_pos hE] at h
      exact ih h
    · rw [if_neg hE] at h
      cases hP : processLine (pyStripL l) with
      | none =>
        rw [hP] at h
        exact ih h
      | some d2 =>
        rw [hP] at h
        injection h with h
        subst h
        exact processLine_content _ _ hP

/-- The Alice draft of the parser example, used by the C4 witness. -/
def aliceDraft : Draft :=
  { timestamp := "[01/01/2024, 10:00:00]", sender := "Alice", content := "hello there" }

/-- A user message produced by a concrete send, used by the C4 witness. -/
def witnessMsg : Message :=
  { id := "u2", timestamp := "[t]", sender := "Bob", content := "hi",
    isUser := true, createdAt := "c2" }

/-- C4 counterexample: a send with a whitespace-only sender and a
one-character content passes validation and is appended, so the
appended message has an empty sender and a content of length one. -/
theorem message_fields_counterexample :
    (send_chat_message initialChatState "kxhl-1" " " "a" "u1" "[ts]" "ca").2 =
      some { id := "u1", timestamp := "[ts]", sender := "", content := "a",
             isUser := true, createdAt := "ca" } ∧
    lookupD (send_chat_message initialChatState "kxhl-1" " " "a" "u1" "[ts]" "ca").1.chat_messages
        "kxhl-1" [] =
      [{ id := "u1", timestamp := "[ts]", sender := "", content := "a",
         isUser := true, createdAt := "ca" }] ∧
    ("" : String).length = 0 ∧ ("a" : String).length < 2 := by
  exact ⟨by decide, by decide, rfl, by decide⟩

/-- C4 (amended).  Every message appended through the send endpoint has
trimmed, non-empty content and a trimmed sender, and every draft the
generation parser produces has trimmed content of length at least two;
the sender may be empty on either path and user content may be shorter
than two characters. -/
theorem message_fields_amended :
    (∀ (st : ChatState) model_id sender content i1 i2 i3 (st2 : ChatState) (m : Message),
        send_chat_message st model_id sender content i1 i2 i3 = (st2, some m) →
        m.content = pyStrip m.content ∧ m.content ≠ "" ∧ m.sender = pyStrip m.sender) ∧
    (∀ text d, parse_first_message text = some d →
        d.content = pyStrip d.content ∧ 2 ≤ d.content.length) := by
  constructor
  · intro st model_id sender content i1 i2 i3 st2 m h
    unfold send_chat_message at h
    split at h
    · split at h
      · exact absurd h (by simp)
      · rename_i hne
        injection h with h1 h2
        injection h2 with h2
        subst h2
        exact ⟨(pyStrip_idem content).symm, hne, (pyStrip_idem sender).symm⟩
    · exact absurd h (by simp)
  · intro text d h
    exact firstDraftOfLines_content _ _ h

/-- Witness for the amended C4: a concrete send and the concrete Alice
draft. -/
theorem message_fields_amended_witness :
    (witnessMsg.content = pyStrip witnessMsg.content ∧ witnessMsg.content ≠ "" ∧
     witnessMsg.sender = pyStrip witnessMsg.sender) ∧
    (aliceDraft.content = pyStrip aliceDraft.content ∧ 2 ≤ aliceDraft.content.length) :=
  ⟨message_fields_amended.1 initialChatState "kxhl-1" " Bob " "hi" "u2" "[t]" "c2"
      (appendMessage initialChatState "kxhl-1" witnessMsg) witnessMsg (by decide),
   message_fields_amended.2
      "random noise\n[01/01/2024, 10:00:00] Alice: hello there\nmore noise" aliceDraft
      (by decide)⟩

end Chat
